import Mathlib

/-!
Shallow embedding of `src/cmd/validate.rs` (the xsv `val` command): a CSV
delimiter-consistency validator.  Bytes are modelled as `Nat`, file contents
as `List Nat`, Rust `String`s (used only in error records) as Lean `String`s
obtained byte-by-byte via `Char.ofNat` (the inputs of interest are ASCII).
`BufRead::read_line` keeps the line terminator; `BufRead::lines` strips a
trailing `\n` and then a trailing `\r`.  Both are modelled explicitly below.
-/

namespace XsvValidate

/-- One byte of the baseline (first-line) scan of `validate_quoted`
(`validate.rs` lines 130-136): `if ch == delim && !qual_flag { count += 1 }
else if ch == qual { qual_flag = !qual_flag }`.  State is
`(delim_count, qual_flag)`. -/
def scanFirstStep (delim qual : Nat) (s : Nat × Bool) (ch : Nat) : Nat × Bool :=
  if ch = delim ∧ ¬ s.2 then (s.1 + 1, s.2)
  else if ch = qual then (s.1, ¬ s.2)
  else s

/-- One byte of the subsequent-line scan of `validate_quoted`
(`validate.rs` lines 145-157): a `match` whose first arm fires whenever
`ch == delim` (incrementing only when `!qual_flag`), and whose second arm
(`ch == qual`, toggling) is reached only when `ch != delim`. -/
def scanLineStep (delim qual : Nat) (s : Nat × Bool) (ch : Nat) : Nat × Bool :=
  if ch = delim then (if ¬ s.2 then (s.1 + 1, s.2) else s)
  else if ch = qual then (s.1, ¬ s.2)
  else s

/-- The baseline-line scan: fold `scanFirstStep` over the bytes of the line. -/
def scanFirst (delim qual : Nat) (s : Nat × Bool) (line : List Nat) : Nat × Bool :=
  line.foldl (scanFirstStep delim qual) s

/-- The subsequent-line scan: fold `scanLineStep` over the bytes of the line. -/
def scanLine (delim qual : Nat) (s : Nat × Bool) (line : List Nat) : Nat × Bool :=
  line.foldl (scanLineStep delim qual) s

/-- The delimiter count of one line in unquoted mode (`validate_unquoted`,
lines 185-189 and 197-205: every byte equal to `delim` is counted). -/
def scanUnquoted (delim : Nat) (count : Nat) (line : List Nat) : Nat :=
  line.foldl (fun c ch => if ch = delim then c + 1 else c) count

/-- `BufRead::read_line`: the first line of the stream including its
terminating `\n` (byte 10) when present, together with the rest of the
stream.  On an empty stream it reads nothing. -/
def readLine : List Nat → List Nat × List Nat
  | [] => ([], [])
  | c :: rest =>
    if c = 10 then ([10], rest)
    else
      let p := readLine rest
      (c :: p.1, p.2)

/-- Drop one trailing `\r` (byte 13), as `BufRead::lines` does after it has
dropped the trailing `\n`. -/
def stripCR (l : List Nat) : List Nat :=
  if l.getLast? = some 13 then l.dropLast else l

/-- Drop a trailing `\n`, and then a trailing `\r`, exactly as
`BufRead::lines` normalises each produced line. -/
def stripTerm (l : List Nat) : List Nat :=
  if l.getLast? = some 10 then stripCR l.dropLast else l

/-- Helper for `linesOf`: accumulates the current line (reversed) while
walking the stream.  At a `\n` the finished line is emitted with a trailing
`\r` removed; at end of stream a non-empty final line is emitted as is. -/
def linesAux : List Nat → List Nat → List (List Nat)
  | cur, [] => if cur.isEmpty then [] else [cur.reverse]
  | cur, c :: rest =>
    if c = 10 then stripCR cur.reverse :: linesAux [] rest
    else linesAux (c :: cur) rest

/-- `BufRead::lines`: the lines of a stream, each with its terminator
stripped; a final line without a terminator is still produced. -/
def linesOf (s : List Nat) : List (List Nat) := linesAux [] s

/-- Render a line's bytes as a string (identity on ASCII), used for the
`data` field of error records. -/
def byteStr (l : List Nat) : String := String.mk (l.map Char.ofNat)

/-- `fmt_error` (`validate.rs` lines 219-221):
`format!("{},{},{},\"{}\"", line_no, expected, actual, data)`. -/
def fmt_error (line_no expected actual : Nat) (data : String) : String :=
  toString line_no ++ "," ++ toString expected ++ "," ++ toString actual ++
    ",\"" ++ data ++ "\""

/-- The `for (i, line_result) in reader.lines().enumerate()` loop of
`validate_quoted` (lines 142-163).  The running `delim_count`/`qual_flag`
state is threaded into each iteration exactly as the two mutable variables
are in the source; the source resets both at the end of every loop body,
which is why the recursive call passes `0` and `false`. -/
def quotedLoop (delim qual expected : Nat) (count : Nat) (flag : Bool)
    (i : Nat) : List (List Nat) → List String
  | [] => []
  | l :: ls =>
    let s := scanLine delim qual (count, flag) l
    let tail := quotedLoop delim qual expected 0 false (i + 1) ls
    if s.1 ≠ expected then
      fmt_error (i + 1) expected s.1 (byteStr l) :: tail
    else tail

/-- The corresponding loop of `validate_unquoted` (lines 194-210). -/
def unquotedLoop (delim expected : Nat) (count : Nat) (i : Nat) :
    List (List Nat) → List String
  | [] => []
  | l :: ls =>
    let c := scanUnquoted delim count l
    let tail := unquotedLoop delim expected 0 (i + 1) ls
    if c ≠ expected then fmt_error (i + 1) expected c (byteStr l) :: tail
    else tail

/-- `validate_quoted` (lines 119-170): read the first line (terminator
included) to fix `expected_delims`, reset the counters, then scan every
remaining (terminator-stripped) line, collecting one formatted error per
mismatching line. -/
def validate_quoted (delim qual : Nat) (content : List Nat) :
    Except (List String) Unit :=
  let first := readLine content
  let expected_delims := (scanFirst delim qual (0, false) first.1).1
  let errs := quotedLoop delim qual expected_delims 0 false 0 (linesOf first.2)
  if errs.isEmpty then .ok () else .error errs

/-- `validate_unquoted` (lines 172-217). -/
def validate_unquoted (delim : Nat) (content : List Nat) :
    Except (List String) Unit :=
  let first := readLine content
  let expected_delims := scanUnquoted delim 0 first.1
  let errs := unquotedLoop delim expected_delims 0 0 (linesOf first.2)
  if errs.isEmpty then .ok () else .error errs

/-- The message built by `validate_path` (lines 107-117) when the path does
not exist or is not a regular file. -/
def validate_path_msg (path : String) : String :=
  "Path not found or filepath is not a file: " ++ path

/-- The filesystem facts `validate_file` consults: whether the path passes
the `exists() && is_file()` check of `validate_path`, and the outcome of
`File::open` (the file's bytes, or the error rendered by `{}`). -/
structure FileEnv where
  path_ok : Bool
  open_result : Except String (List Nat)

/-- `validate_file` (lines 83-105).  A failed path check or a failed open
returns a one-element error vector before any scanning; otherwise the
quoted or unquoted scan runs on the file's bytes.  (In the source
`qual.unwrap()` is reached only when `is_quoted`, in which case `run`
always passes `Some`; `Option.getD` stands in for that `unwrap`.) -/
def validate_file (delim : Nat) (qual : Option Nat) (is_quoted : Bool)
    (env : FileEnv) (file_path : String) : Except (List String) Unit :=
  if env.path_ok = false then .error [validate_path_msg file_path]
  else
    match env.open_result with
    | .error e => .error ["Error opening file: " ++ e]
    | .ok content =>
      if is_quoted then validate_quoted delim (qual.getD 0) content
      else validate_unquoted delim content

/-- The header line printed before error records (`run`, lines 69 and 75). -/
def val_header : String := "Line_Number,Expected_Delimiters,Actual_Delimiters,Data"

/-- The reporting stage of `run` (lines 61-80), as the pair (lines written
to the chosen destination, returned `CliResult`).  `use_output_file` models
`flag_output.is_some()`; `create_ok` models whether `File::create`
succeeds.  On `Ok` the confirmation goes to stdout; on `Err` with an output
file whose creation fails, the `Result` of `File::create` is discarded by
`let _ = ...`, so nothing at all is written, yet the function still
returns `Err("File is invalid")`. -/
def runReport (use_output_file create_ok : Bool)
    (res : Except (List String) Unit) : List String × Except String Unit :=
  match res with
  | .ok _ => (["File is valid"], .ok ())
  | .error e =>
    if use_output_file then
      (if create_ok then val_header :: e else [], .error "File is invalid")
    else (val_header :: e, .error "File is invalid")

/-- The lines that are checked against the baseline: everything after the
first `read_line`, as produced by `reader.lines()`. -/
def postLines (content : List Nat) : List (List Nat) :=
  linesOf (readLine content).2

/-- The `expected_delims` baseline fixed by the first-line scan of
`validate_quoted`. -/
def expectedCount (delim qual : Nat) (content : List Nat) : Nat :=
  (scanFirst delim qual (0, false) (readLine content).1).1

/-- The delimiter count of a single line in quote-aware mode, scanned from
a fresh state (count 0, not inside quotes). -/
def lineCount (delim qual : Nat) (l : List Nat) : Nat :=
  (scanLine delim qual (0, false) l).1

lemma stripTerm_concat_ten (xs : List Nat) : stripTerm (xs ++ [10]) = stripCR xs := by
  simp [stripTerm, List.getLast?_concat, List.dropLast_concat]

lemma stripTerm_concat_ne (xs : List Nat) (a : Nat) (h : a ≠ 10) :
    stripTerm (xs ++ [a]) = xs ++ [a] := by
  simp [stripTerm, List.getLast?_concat, h]

lemma stripTerm_no_term (xs : List Nat) (h : xs.getLast? ≠ some 10) :
    stripTerm xs = xs := by
  simp [stripTerm, h]

/-- Every list is its stripped form followed by one of the three possible
terminators: nothing, `\n`, or `\r\n`. -/
lemma stripTerm_decomp (l : List Nat) :
    l = stripTerm l ∨ l = stripTerm l ++ [10] ∨ l = stripTerm l ++ [13, 10] := by
  rcases List.eq_nil_or_concat l with rfl | ⟨l', a, rfl⟩
  · left; rfl
  · simp only [List.concat_eq_append]
    by_cases ha : a = 10
    · subst ha
      rw [stripTerm_concat_ten]
      rcases List.eq_nil_or_concat l' with rfl | ⟨l'', b, rfl⟩
      · right; left; simp [stripCR]
      · by_cases hb : b = 13
        · subst hb
          right; right
          simp [stripCR, List.getLast?_concat, List.dropLast_concat]
        · right; left
          simp [stripCR, List.getLast?_concat, hb]
    · left
      rw [stripTerm_concat_ne _ _ ha]

lemma linesAux_readLine (content : List Nat) :
    ∀ cur : List Nat, content ≠ [] →
      linesAux cur content =
        stripTerm (cur.reverse ++ (readLine content).1) ::
          linesOf (readLine content).2 := by
  induction content with
  | nil => intro cur h; exact absurd rfl h
  | cons c rest ih =>
    intro cur _
    by_cases hc : c = 10
    · subst hc
      show stripCR cur.reverse :: linesAux [] rest = _
      rw [show readLine (10 :: rest) = ([10], rest) from rfl]
      rw [stripTerm_concat_ten]
      rfl
    · rw [show linesAux cur (c :: rest) = linesAux (c :: cur) rest from by
        simp [linesAux, hc]]
      rw [show readLine (c :: rest)
          = (c :: (readLine rest).1, (readLine rest).2) from by
        simp [readLine, hc]]
      cases rest with
      | nil =>
        show (if (c :: cur).isEmpty then ([] : List (List Nat))
            else [(c :: cur).reverse]) = _
        simp only [List.isEmpty, List.reverse_cons]
        rw [show readLine [] = ([], []) from rfl]
        simp only [List.append_nil]
        rw [stripTerm_concat_ne _ _ hc]
        rfl
      | cons d rest' =>
        rw [ih (c :: cur) (by simp)]
        simp [List.append_assoc]

lemma linesOf_cons (content : List Nat) (h : content ≠ []) :
    linesOf content =
      stripTerm (readLine content).1 :: linesOf (readLine content).2 := by
  have := linesAux_readLine content [] h
  simpa [linesOf] using this

/-- The subsequent-line loop of `validate_quoted` produces exactly one
formatted error, in order, for each enumerated line whose fresh-state count
differs from the expected count. -/
lemma quotedLoop_eq (delim qual E : Nat) (ls : List (List Nat)) :
    ∀ i : Nat, quotedLoop delim qual E 0 false i ls =
      (ls.enumFrom i).filterMap (fun p =>
        if lineCount delim qual p.2 ≠ E then
          some (fmt_error (p.1 + 1) E (lineCount delim qual p.2) (byteStr p.2))
        else none) := by
  induction ls with
  | nil => intro i; rfl
  | cons l ls ih =>
    intro i
    show (if lineCount delim qual l ≠ E then
        fmt_error (i + 1) E (lineCount delim qual l) (byteStr l) ::
          quotedLoop delim qual E 0 false (i + 1) ls
      else quotedLoop delim qual E 0 false (i + 1) ls) = _
    rw [show (l :: ls).enumFrom i = (i, l) :: ls.enumFrom (i + 1) from rfl]
    rw [List.filterMap_cons, ih (i + 1)]
    by_cases h : lineCount delim qual l ≠ E
    · simp [h]
    · simp [h]

lemma scanFirst_append (delim qual : Nat) (s : Nat × Bool) (xs ys : List Nat) :
    scanFirst delim qual s (xs ++ ys)
      = scanFirst delim qual (scanFirst delim qual s xs) ys :=
  List.foldl_append _ _ _ _

lemma scanFirstStep_no_match (delim qual : Nat) (s : Nat × Bool) (b : Nat)
    (h1 : b ≠ delim) (h2 : b ≠ qual) : scanFirstStep delim qual s b = s := by
  simp [scanFirstStep, h1, h2]

lemma scanFirst_no_match (delim qual : Nat) (t : List Nat)
    (h : ∀ b ∈ t, b ≠ delim ∧ b ≠ qual) :
    ∀ s : Nat × Bool, scanFirst delim qual s t = s := by
  induction t with
  | nil => intro s; rfl
  | cons b t ih =>
    intro s
    have hb := h b (by simp)
    show scanFirst delim qual (scanFirstStep delim qual s b) t = s
    rw [scanFirstStep_no_match _ _ _ _ hb.1 hb.2]
    exact ih (fun x hx => h x (by simp [hx])) s

lemma step_eq_of_ne (delim qual : Nat) (h : delim ≠ qual) (s : Nat × Bool)
    (ch : Nat) : scanFirstStep delim qual s ch = scanLineStep delim qual s ch := by
  by_cases hc : ch = delim
  · subst hc
    by_cases hf : s.2
    · simp [scanFirstStep, scanLineStep, hf, h]
    · simp [scanFirstStep, scanLineStep, hf]
  · simp [scanFirstStep, scanLineStep, hc]

/-- Started outside quotes with any running count, the baseline scan and the
subsequent-line scan agree on every line (they differ only on states that
are unreachable from the start of a line). -/
lemma scanFirst_eq_scanLine (delim qual : Nat) (l : List Nat) :
    ∀ c : Nat, scanFirst delim qual (c, false) l
      = scanLine delim qual (c, false) l := by
  by_cases h : delim = qual
  · subst h
    induction l with
    | nil => intro c; rfl
    | cons ch t ih =>
      intro c
      show scanFirst delim delim (scanFirstStep delim delim (c, false) ch) t
        = scanLine delim delim (scanLineStep delim delim (c, false) ch) t
      by_cases hc : ch = delim
      · rw [show scanFirstStep delim delim (c, false) ch = (c + 1, false) from by
            simp [scanFirstStep, hc],
          show scanLineStep delim delim (c, false) ch = (c + 1, false) from by
            simp [scanLineStep, hc]]
        exact ih (c + 1)
      · rw [show scanFirstStep delim delim (c, false) ch = (c, false) from by
            simp [scanFirstStep, hc],
          show scanLineStep delim delim (c, false) ch = (c, false) from by
            simp [scanLineStep, hc]]
        exact ih c
  · have hstep : scanFirstStep delim qual = scanLineStep delim qual := by
      funext s ch; exact step_eq_of_ne delim qual h s ch
    intro c
    unfold scanFirst scanLine
    rw [hstep]

lemma scanFirstStep_fst_of_ne (delim qual : Nat) (s : Nat × Bool) (b : Nat)
    (h : b ≠ delim) : (scanFirstStep delim qual s b).1 = s.1 := by
  simp only [scanFirstStep, h, false_and, if_false]
  by_cases hq : b = qual
  · simp [hq]
  · simp [hq]

/-- Bytes that are not the delimiter can toggle the quote flag but never
change the running count. -/
lemma scanFirst_fst_no_delim (delim qual : Nat) (t : List Nat)
    (h : ∀ b ∈ t, b ≠ delim) :
    ∀ s : Nat × Bool, (scanFirst delim qual s t).1 = s.1 := by
  induction t with
  | nil => intro s; rfl
  | cons b t ih =>
    intro s
    show (scanFirst delim qual (scanFirstStep delim qual s b) t).1 = s.1
    rw [ih (fun x hx => h x (by simp [hx]))]
    exact scanFirstStep_fst_of_ne delim qual s b (h b (by simp))

/-- When the delimiter byte is not a line-break byte, the baseline count
(computed on the raw first line, terminator included) equals the
fresh-state count of the first line with its terminator stripped: the
terminator bytes may at most toggle the quote flag, which is discarded. -/
lemma expectedCount_eq_lineCount (delim qual : Nat) (content : List Nat)
    (hd1 : delim ≠ 10) (hd2 : delim ≠ 13) :
    expectedCount delim qual content
      = lineCount delim qual (stripTerm (readLine content).1) := by
  unfold expectedCount lineCount
  rw [← scanFirst_eq_scanLine]
  rcases stripTerm_decomp (readLine content).1 with h | h | h
  · rw [← h]
  · conv_lhs => rw [h]
    rw [scanFirst_append]
    exact scanFirst_fst_no_delim delim qual [10]
      (by intro b hb; simp at hb; subst hb; exact Ne.symm hd1) _
  · conv_lhs => rw [h]
    rw [scanFirst_append]
    exact scanFirst_fst_no_delim delim qual [13, 10] (by
      intro b hb
      simp at hb
      rcases hb with hb | hb <;> subst hb
      · exact Ne.symm hd2
      · exact Ne.symm hd1) _

lemma snd_mem_of_mem_enumFrom {α : Type} {p : Nat × α} :
    ∀ {l : List α} {n : Nat}, p ∈ l.enumFrom n → p.2 ∈ l := by
  intro l
  induction l with
  | nil => intro n h; cases h
  | cons a t ih =>
    intro n h
    rw [show (a :: t).enumFrom n = (n, a) :: t.enumFrom (n + 1) from rfl] at h
    rcases List.mem_cons.mp h with h | h
    · subst h; simp
    · exact List.mem_cons_of_mem _ (ih h)

lemma mem_enumFrom_of_mem {α : Type} {a : α} :
    ∀ {l : List α} (n : Nat), a ∈ l → ∃ i, (i, a) ∈ l.enumFrom n := by
  intro l
  induction l with
  | nil => intro n h; cases h
  | cons b t ih =>
    intro n h
    rcases List.mem_cons.mp h with h | h
    · exact ⟨n, by rw [h]; exact List.mem_cons_self _ _⟩
    · obtain ⟨i, hi⟩ := ih (n + 1) h
      exact ⟨i, List.mem_cons_of_mem _ hi⟩

lemma quotedLoop_nil_of_all (delim qual E : Nat) (ls : List (List Nat)) (i : Nat)
    (h : ∀ l ∈ ls, lineCount delim qual l = E) :
    quotedLoop delim qual E 0 false i ls = [] := by
  rw [quotedLoop_eq]
  apply List.filterMap_eq_nil_iff.mpr
  intro p hp
  have := h p.2 (snd_mem_of_mem_enumFrom hp)
  simp [this]

lemma validate_quoted_eq (delim qual : Nat) (content : List Nat) :
    validate_quoted delim qual content =
      if (quotedLoop delim qual (expectedCount delim qual content) 0 false 0
          (postLines content)).isEmpty
      then .ok ()
      else .error (quotedLoop delim qual (expectedCount delim qual content) 0 false 0
          (postLines content)) := rfl

lemma validate_unquoted_eq (delim : Nat) (content : List Nat) :
    validate_unquoted delim content =
      if (unquotedLoop delim (scanUnquoted delim 0 (readLine content).1) 0 0
          (postLines content)).isEmpty
      then .ok ()
      else .error (unquotedLoop delim (scanUnquoted delim 0 (readLine content).1) 0 0
          (postLines content)) := rfl

lemma isEmpty_false_of_ne_nil {α : Type} {l : List α} (h : l ≠ []) :
    l.isEmpty = false := by
  cases l
  · exact absurd rfl h
  · rfl

/-- C1: counterexample.  With delimiter = quote = byte 44, at the start of a
line (outside quotes) a byte equal to both values is counted as a delimiter
and does not toggle the inside-quotes flag — in the subsequent-line scan, in
the baseline scan, and end to end in `validate_quoted` (the shared byte on
the first line is counted, so the distinct second line is reported).  This
refutes the claim that such a byte "toggles the inside-quotes flag and is
never counted as a delimiter". -/
theorem C1_counterexample :
    scanLineStep 44 44 (0, false) 44 = (1, false) ∧
    scanFirstStep 44 44 (0, false) 44 = (1, false) ∧
    validate_quoted 44 44 [44, 10, 120] = .error ["1,1,0,\"x\""] :=
  ⟨rfl, rfl, rfl⟩

/-- C1 (amended): when a byte equals both the configured delimiter and the
configured quote byte, the delimiter check takes priority: outside quotes
the byte is counted as a delimiter and does not toggle the flag, in both
scans; inside quotes it is not counted, and the baseline scan toggles the
flag off while the subsequent-line scan leaves the state entirely
unchanged. -/
theorem C1_amended (delim qual ch count : Nat) (flag : Bool)
    (hd : ch = delim) (hq : ch = qual) :
    scanLineStep delim qual (count, flag) ch
      = (if flag then (count, flag) else (count + 1, flag)) ∧
    scanFirstStep delim qual (count, flag) ch
      = (if flag then (count, false) else (count + 1, flag)) := by
  subst hd
  cases flag
  · simp [scanLineStep, scanFirstStep]
  · simp [scanLineStep, scanFirstStep, hq]

/-- C1 witness: the amended theorem applied at delimiter = quote = byte 44,
count 3, in both flag states. -/
theorem C1_witness :
    (scanLineStep 44 44 (3, false) 44
        = (if false then (3, false) else (3 + 1, false)) ∧
      scanFirstStep 44 44 (3, false) 44
        = (if false then (3, false) else (3 + 1, false))) ∧
    (scanLineStep 44 44 (3, true) 44
        = (if true then (3, true) else (3 + 1, true)) ∧
      scanFirstStep 44 44 (3, true) 44
        = (if true then (3, false) else (3 + 1, true))) :=
  ⟨C1_amended 44 44 44 3 false rfl rfl, C1_amended 44 44 44 3 true rfl rfl⟩

/-- C2: counterexample.  For the spec's path `/nonexistent/file.csv` the
user-visible output is exactly a validation batch: the batch header followed
by the setup message — not a single standalone message.  This refutes
"never presented as, or mixed into, a validation batch". -/
theorem C2_counterexample :
    (runReport false false
        (validate_file 44 (some 34) true ⟨false, Except.ok []⟩
          "/nonexistent/file.csv")).1
      = [val_header, validate_path_msg "/nonexistent/file.csv"] ∧
    (runReport false false
        (validate_file 44 (some 34) true ⟨false, Except.ok []⟩
          "/nonexistent/file.csv")).1
      ≠ [validate_path_msg "/nonexistent/file.csv"] := by
  refine ⟨rfl, ?_⟩
  decide

/-- C2 (amended): setup failures (path check) and open failures abort before
any scanning and produce a single-element error message naming the cause;
however `run` presents every failure uniformly, so that single message is
written beneath the validation-batch header, with outcome
"File is invalid". -/
theorem C2_amended (delim : Nat) (qual : Option Nat) (isq : Bool)
    (env : FileEnv) (path : String) :
    (env.path_ok = false →
      validate_file delim qual isq env path = .error [validate_path_msg path] ∧
      runReport false false (validate_file delim qual isq env path)
        = ([val_header, validate_path_msg path], .error "File is invalid")) ∧
    (∀ e, env.path_ok = true → env.open_result = .error e →
      validate_file delim qual isq env path
          = .error ["Error opening file: " ++ e] ∧
      runReport false false (validate_file delim qual isq env path)
        = ([val_header, "Error opening file: " ++ e],
            .error "File is invalid")) := by
  constructor
  · intro h
    have hv : validate_file delim qual isq env path
        = .error [validate_path_msg path] := by
      simp [validate_file, h]
    exact ⟨hv, by rw [hv]; rfl⟩
  · intro e h1 h2
    have hv : validate_file delim qual isq env path
        = .error ["Error opening file: " ++ e] := by
      simp [validate_file, h1, h2]
    exact ⟨hv, by rw [hv]; rfl⟩

/-- C2 witness: the amended theorem at the spec's scenario, the path
`/nonexistent/file.csv` failing the path check. -/
theorem C2_witness :
    validate_file 44 (some 34) true ⟨false, Except.ok []⟩ "/nonexistent/file.csv"
      = .error [validate_path_msg "/nonexistent/file.csv"] ∧
    runReport false false
        (validate_file 44 (some 34) true ⟨false, Except.ok []⟩
          "/nonexistent/file.csv")
      = ([val_header, validate_path_msg "/nonexistent/file.csv"],
          .error "File is invalid") :=
  (C2_amended 44 (some 34) true ⟨false, Except.ok []⟩ "/nonexistent/file.csv").1 rfl

/-- C5: on the line `a,"b,c",d` with delimiter `,` (byte 44) and quote `"`
(byte 34), the quote-aware per-line count is 2 (the comma inside the quoted
span is not counted) and the unquoted per-line count is 3 (every delimiter
byte counted literally). -/
theorem C5_counts :
    lineCount 44 34 [97, 44, 34, 98, 44, 99, 34, 44, 100] = 2 ∧
    scanUnquoted 44 0 [97, 44, 34, 98, 44, 99, 34, 44, 100] = 3 :=
  ⟨by decide, by decide⟩

/-- C8: every error record is formatted as
`<line_number>,<expected>,<actual>,"<raw_line_data>"`, the raw data wrapped
in literal double quotes with no escaping applied; concretely, a mismatching
line containing `"` characters appears verbatim between the two added
quotes in the batch produced by `validate_quoted`. -/
theorem C8_format :
    (∀ (n e a : Nat) (d : String),
      fmt_error n e a d
        = toString n ++ "," ++ toString e ++ "," ++ toString a
            ++ ",\"" ++ d ++ "\"") ∧
    validate_quoted 44 34 [97, 44, 98, 10, 34, 120, 34, 34]
      = .error ["1,1,0,\"\"x\"\"\""] :=
  ⟨fun _ _ _ _ => rfl, rfl⟩

/-- C10: when an output file is requested but its creation fails, the whole
error batch (header and records) is silently discarded — nothing is written
anywhere and no message about the write failure is produced — yet `run`
still returns the failure "File is invalid".  With a successful create the
same batch would have been written. -/
theorem C10_discarded_batch (e : List String) :
    runReport true false (.error e) = ([], .error "File is invalid") ∧
    runReport true true (.error e) = (val_header :: e, .error "File is invalid") :=
  ⟨rfl, rfl⟩

/-- C3: for every input with at least one post-baseline line whose
fresh-state delimiter count differs from the baseline count, quote-aware
validation returns Invalid holding exactly one error per such line, in
ascending order, where the reported line number is one plus the 0-based
index of the line among the post-baseline lines. -/
theorem C3_mismatch_errors (delim qual : Nat) (content : List Nat)
    (h : ∃ l ∈ postLines content,
      lineCount delim qual l ≠ expectedCount delim qual content) :
    validate_quoted delim qual content =
      .error ((postLines content).enum.filterMap (fun p =>
        if lineCount delim qual p.2 ≠ expectedCount delim qual content then
          some (fmt_error (p.1 + 1) (expectedCount delim qual content)
            (lineCount delim qual p.2) (byteStr p.2))
        else none)) := by
  obtain ⟨l, hl, hne⟩ := h
  obtain ⟨i, hi⟩ := mem_enumFrom_of_mem 0 hl
  rw [validate_quoted_eq, quotedLoop_eq]
  have hmem : fmt_error (i + 1) (expectedCount delim qual content)
      (lineCount delim qual l) (byteStr l)
      ∈ ((postLines content).enumFrom 0).filterMap (fun p =>
        if lineCount delim qual p.2 ≠ expectedCount delim qual content then
          some (fmt_error (p.1 + 1) (expectedCount delim qual content)
            (lineCount delim qual p.2) (byteStr p.2))
        else none) :=
    List.mem_filterMap.mpr ⟨(i, l), hi, by simp [hne]⟩
  have hfalse := isEmpty_false_of_ne_nil (List.ne_nil_of_mem hmem)
  rw [if_neg (by rw [hfalse]; exact Bool.false_ne_true)]
  rfl

/-- The spec's concrete scenario: `name,age,city`, `Alice,30,NYC`,
`Bob,25`. -/
def sampleInput : List Nat :=
  [110, 97, 109, 101, 44, 97, 103, 101, 44, 99, 105, 116, 121, 10,
   65, 108, 105, 99, 101, 44, 51, 48, 44, 78, 89, 67, 10,
   66, 111, 98, 44, 50, 53]

/-- C3 witness: the theorem at the spec's scenario; the sole error is the
record for `Bob,25`, reported with line number 2. -/
theorem C3_witness :
    validate_quoted 44 34 sampleInput = .error ["2,2,1,\"Bob,25\""] := by
  have h := C3_mismatch_errors 44 34 sampleInput
    ⟨[66, 111, 98, 44, 50, 53], by decide, by decide⟩
  rw [h]
  rfl

/-- C4: counterexample.  With delimiter = `\n` (byte 10) and quote `"`,
every line of the input `a\nb` has exactly 0 delimiters outside quoted
spans (uniform K = 0), yet validation reports the second line: the baseline
is scanned with its terminator included, so the expected count is 1.  This
refutes the claim as stated for arbitrary configurations. -/
theorem C4_counterexample :
    lineCount 10 34 [97] = 0 ∧ lineCount 10 34 [98] = 0 ∧
    linesOf [97, 10, 98] = [[97], [98]] ∧
    validate_quoted 10 34 [97, 10, 98] = .error ["1,1,0,\"b\""] :=
  ⟨rfl, rfl, rfl, rfl⟩

/-- C4 (amended): for every configuration whose delimiter byte is not a
line-break byte (LF 10 or CR 13), and every input in which every line has
exactly K delimiters outside quoted spans, quote-aware validation returns
Valid.  (The quote byte is unrestricted: a terminator byte equal to the
quote can only toggle the flag at the very end of the baseline scan, which
never changes the count.) -/
theorem C4_uniform_valid (delim qual K : Nat) (content : List Nat)
    (hd1 : delim ≠ 10) (hd2 : delim ≠ 13)
    (hK : ∀ l ∈ linesOf content, lineCount delim qual l = K) :
    validate_quoted delim qual content = .ok () := by
  by_cases hc : content = []
  · subst hc; rfl
  · have hsplit := linesOf_cons content hc
    have hexp : expectedCount delim qual content = K := by
      rw [expectedCount_eq_lineCount delim qual content hd1 hd2]
      exact hK _ (by rw [hsplit]; exact List.mem_cons_self _ _)
    have hall : ∀ l ∈ postLines content,
        lineCount delim qual l = expectedCount delim qual content := by
      intro l hl
      rw [hexp]
      exact hK l (by rw [hsplit]; exact List.mem_cons_of_mem _ hl)
    rw [validate_quoted_eq, quotedLoop_nil_of_all delim qual _ _ 0 hall]
    rfl

/-- C4 witness: the amended theorem on `a,b` / `c,d` with the default
configuration (delimiter `,`, quote `"`), uniform count K = 1. -/
theorem C4_witness :
    validate_quoted 44 34 [97, 44, 98, 10, 99, 44, 100, 10] = .ok () :=
  C4_uniform_valid 44 34 1 [97, 44, 98, 10, 99, 44, 100, 10]
    (by decide) (by decide) (by decide)

/-- C6: an empty input (no lines at all) and an input with a single line
(baseline established, zero subsequent lines) both validate as Valid, in
quoted and unquoted mode alike; no baseline is read past end-of-stream (an
empty stream simply yields an empty baseline and nothing to check). -/
theorem C6_degenerate (delim qual : Nat) (content : List Nat)
    (h : (linesOf content).length ≤ 1) :
    validate_quoted delim qual content = .ok () ∧
    validate_unquoted delim content = .ok () := by
  by_cases hc : content = []
  · subst hc; exact ⟨rfl, rfl⟩
  · have hsplit := linesOf_cons content hc
    have hrest : postLines content = [] := by
      rw [hsplit] at h
      simp only [List.length_cons] at h
      have h0 : (linesOf (readLine content).2).length = 0 := by omega
      exact List.length_eq_zero.mp h0
    constructor
    · rw [validate_quoted_eq, hrest]; rfl
    · rw [validate_unquoted_eq, hrest]; rfl

/-- C6 witness: the theorem on the single-line input `a,b` (and trivially
on the empty input through the same hypothesis shape). -/
theorem C6_witness :
    (linesOf [97, 44, 98]).length ≤ 1 ∧
    validate_quoted 44 34 [97, 44, 98] = .ok () ∧
    validate_unquoted 44 [97, 44, 98] = .ok () :=
  ⟨by decide, (C6_degenerate 44 34 [97, 44, 98] (by decide)).1,
    (C6_degenerate 44 34 [97, 44, 98] (by decide)).2⟩

/-- Follows the spec's words (§3 invariants, §4 algorithm): ExpectedCount is
derived once, from exactly the first line, before any comparison; every
subsequent line is scanned with the running count reset to 0 and the
inside-quotes flag reset to false at the start of that line, the result
compared against the one fixed ExpectedCount. -/
def validateQuotedSpec (delim qual : Nat) (content : List Nat) :
    Except (List String) Unit :=
  let expected := expectedCount delim qual content
  let errs := (postLines content).enum.filterMap (fun p =>
    if lineCount delim qual p.2 ≠ expected then
      some (fmt_error (p.1 + 1) expected (lineCount delim qual p.2) (byteStr p.2))
    else none)
  if errs.isEmpty then .ok () else .error errs

/-- C7: `validate_quoted` (whose loop threads the mutable count/flag pair
across iterations, resetting at the end of each body) coincides with the
spec-side algorithm in which ExpectedCount is computed exactly once from
the first line and the inside-quotes flag is false at the start of the
scan of every line — quote state never carries across line boundaries. -/
theorem C7_invariants (delim qual : Nat) (content : List Nat) :
    validate_quoted delim qual content = validateQuotedSpec delim qual content := by
  rw [validate_quoted_eq, validateQuotedSpec, quotedLoop_eq]
  rfl

/-- C9: the baseline line is scanned including its terminator bytes
(`read_line` keeps the `\n`, and the `\r` of CRLF input), while every
subsequent line is scanned with the terminator stripped (`lines()` drops
the `\n` and then a trailing `\r`); consequently, with the delimiter set to
the line-break byte 10 the baseline count differs from what the same
visible content yields on a subsequent line, and the input `a\na` is
reported invalid. -/
theorem C9_terminator :
    (∀ xs rest : List Nat, (10 : Nat) ∉ xs →
      readLine (xs ++ 10 :: rest) = (xs ++ [10], rest) ∧
      linesOf (xs ++ 10 :: rest) = stripCR xs :: linesOf rest) ∧
    (expectedCount 10 34 [97, 10, 97] = 1 ∧
      lineCount 10 34 [97] = 0 ∧
      validate_quoted 10 34 [97, 10, 97] = .error ["1,1,0,\"a\""]) := by
  constructor
  · intro xs rest hxs
    have hread : readLine (xs ++ 10 :: rest) = (xs ++ [10], rest) := by
      induction xs with
      | nil => rfl
      | cons b t ih =>
        have hb : b ≠ 10 := fun h => hxs (by simp [h])
        have ht : (10 : Nat) ∉ t := fun h => hxs (List.mem_cons_of_mem _ h)
        simp only [List.cons_append, readLine, if_neg hb, List.append_eq]
        rw [ih ht]
    refine ⟨hread, ?_⟩
    rw [linesOf_cons _ (by simp), hread, stripTerm_concat_ten]
  · exact ⟨rfl, rfl, rfl⟩

/-- C9 witness: the general part of the theorem at the concrete stream
`a\nb`. -/
theorem C9_witness :
    readLine ([97] ++ 10 :: [98]) = ([97] ++ [10], [98]) ∧
    linesOf ([97] ++ 10 :: [98]) = stripCR [97] :: linesOf [98] :=
  C9_terminator.1 [97] [98] (by decide)

end XsvValidate
